import Mathlib

/-!
Verification of the reflection-history analyzer (`gather_history.py`).

Strings are modelled as lists of characters (`Str`); Python's `Counter`
and `dict` are modelled as insertion-ordered association lists, and
Python sets of dates as duplicate-free lists.  All definitions are
translated from the source file; `spec`-prefixed definitions transcribe
the specification's wording for refinement comparisons.
-/

/-- Strings as lists of characters. -/
abbrev Str := List Char

/-- Conversion from Lean string literals to the character-list model. -/
def str (s : String) : Str := s.data

/-- Python `str.strip()`: remove leading and trailing whitespace. -/
def pyStrip (s : Str) : Str :=
  ((s.dropWhile Char.isWhitespace).reverse.dropWhile Char.isWhitespace).reverse

/-- Python `content.split("\n")`: split on newlines, keeping empty pieces. -/
def splitLines : Str → List Str
  | [] => [[]]
  | c :: rest =>
    if c = '\n' then [] :: splitLines rest
    else
      match splitLines rest with
      | l :: ls => (c :: l) :: ls
      | [] => [[c]]

/-- Python `sub in s`: substring membership. -/
def substrMem (sub : Str) : Str → Bool
  | [] => sub.isEmpty
  | c :: t => sub.isPrefixOf (c :: t) || substrMem sub t

/-- Python `s.replace("-", " ")` for the single-character pattern used in the source. -/
def pyReplace (s : Str) (a b : Char) : Str :=
  s.map (fun c => if c = a then b else c)

/-- Python `s.lower()` (ASCII model). -/
def pyLower (s : Str) : Str := s.map Char.toLower

/-- The parsed reflection record, one per document
(`reflection` dict built by `parse_reflection_file`). -/
structure Reflection where
  file : Str
  date : Str
  topic : Str
  summary : Str
  discoveries : List Str
  improvements_made : List Str
  issues_created : List Str
  open_questions : List Str
  patterns_to_watch : List Str
  anti_patterns : List Str
deriving Repr, DecidableEq

/-- The semantics of `re.match(r"(\d{4}-\d{2}-\d{2})-(.+)", filename)`:
the pattern is anchored at the start, `\d` is an ASCII digit, and the greedy
`(.+)` consumes at least one character and stops at a newline or the end. -/
def reMatchDateTopic (fn : Str) : Option (Str × Str) :=
  match fn with
  | y1 :: y2 :: y3 :: y4 :: h1 :: m1 :: m2 :: h2 :: d1 :: d2 :: h3 :: rest =>
    if y1.isDigit && y2.isDigit && y3.isDigit && y4.isDigit && h1 = '-' &&
       m1.isDigit && m2.isDigit && h2 = '-' && d1.isDigit && d2.isDigit && h3 = '-' then
      let slug := rest.takeWhile (fun c => c ≠ '\n')
      if slug.isEmpty then none
      else some ([y1, y2, y3, y4, '-', m1, m2, '-', d1, d2], slug)
    else none
  | _ => none

/-- Lines 30-37 of the source: derive `date` and `topic` from the filename stem. -/
def parseFilename (fn : Str) : Str × Str :=
  match reMatchDateTopic fn with
  | some (d, s) => (d, pyReplace s '-' ' ')
  | none => ([], fn)

/-- `_save_section`: classify the items of a finished section into the
matching category of the record (first matching rule wins; Python's
`or`/`and` precedence makes rule 1 `"discover" in s or ("pattern" in s and
"watch" not in s)`). -/
def saveSection (r : Reflection) (s : Str) (items : List Str) : Reflection :=
  if substrMem (str "discover") (pyLower s) ||
      (substrMem (str "pattern") (pyLower s) && !substrMem (str "watch") (pyLower s)) then
    { r with discoveries := r.discoveries ++ items }
  else if substrMem (str "improvement") (pyLower s) && substrMem (str "made") (pyLower s) then
    { r with improvements_made := r.improvements_made ++ items }
  else if substrMem (str "issue") (pyLower s) || substrMem (str "created") (pyLower s) then
    { r with issues_created := r.issues_created ++ items }
  else if substrMem (str "question") (pyLower s) then
    { r with open_questions := r.open_questions ++ items }
  else if substrMem (str "watch") (pyLower s) || substrMem (str "pattern") (pyLower s) then
    { r with patterns_to_watch := r.patterns_to_watch ++ items }
  else if substrMem (str "anti") (pyLower s) then
    { r with anti_patterns := r.anti_patterns ++ items }
  else r

/-- State of the line-scanning loop of `parse_reflection_file`:
the current section name (lowercased, `none` before the first heading),
the accumulated items of the current section, and the record built so far. -/
structure ParseState where
  cur : Option Str
  items : List Str
  r : Reflection
deriving Repr, DecidableEq

/-- The flush step `if current_section and current_items: _save_section(...)`
(a Python string is truthy when nonempty). -/
def flushIf (st : ParseState) : Reflection :=
  match st.cur with
  | some s => if ¬s.isEmpty ∧ st.items ≠ [] then saveSection st.r s st.items else st.r
  | none => st.r

/-- Checkbox handling: strip a leading `"[x] "` or `"[ ] "` token. -/
def stripCheckbox (item : Str) : Str :=
  if (str "[x] ").isPrefixOf item then item.drop 4
  else if (str "[ ] ").isPrefixOf item then item.drop 4
  else item

/-- One iteration of the `for line in content.split("\n")` loop. -/
def processLine (st : ParseState) (rawLine : Str) : ParseState :=
  if (str "## ").isPrefixOf (pyStrip rawLine) then
    { cur := some (pyLower ((pyStrip rawLine).drop 3)), items := [], r := flushIf st }
  else if (str "### ").isPrefixOf (pyStrip rawLine) then st
  else if (str "- ").isPrefixOf (pyStrip rawLine) then
    if (stripCheckbox (pyStrip ((pyStrip rawLine).drop 2))).isEmpty then st
    else { st with items := st.items ++ [stripCheckbox (pyStrip ((pyStrip rawLine).drop 2))] }
  else if ¬(pyStrip rawLine).isEmpty ∧ st.cur = some (str "session summary") then
    { st with r := { st.r with summary := pyStrip rawLine } }
  else st

/-- The fresh record built at the top of `parse_reflection_file`. -/
def initReflection (filepath fn : Str) : Reflection :=
  let p := parseFilename fn
  { file := filepath, date := p.1, topic := p.2, summary := []
    discoveries := [], improvements_made := [], issues_created := []
    open_questions := [], patterns_to_watch := [], anti_patterns := [] }

/-- `parse_reflection_file` on already-read text: scan the lines, then flush
the last pending section.  The filename stem `fn` supplies `date`/`topic`. -/
def parse_reflection_file (fn : Str) (content : Str) : Reflection :=
  flushIf ((splitLines content).foldl processLine
    { cur := none, items := [], r := initReflection fn fn })

/-- ASCII letter, the class `[a-zA-Z]` of the keyword regex. -/
def isAsciiLetter (c : Char) : Bool :=
  ('a' ≤ c && c ≤ 'z') || ('A' ≤ c && c ≤ 'Z')

/-- Word character for the regex `\b` boundary: `[a-zA-Z0-9_]`. -/
def isWordChar (c : Char) : Bool :=
  isAsciiLetter c || c.isDigit || c = '_'

/-- The continuation class `[a-zA-Z0-9_-]` of the keyword regex. -/
def isTokChar (c : Char) : Bool :=
  isWordChar c || c = '-'

/-- Remove trailing hyphens (the backtracking of the trailing `\b` of the
keyword regex strips them, since `-` is not a word character). -/
def dropTrailingHyphens (l : Str) : Str :=
  (l.reverse.dropWhile (fun c => c = '-')).reverse

/-- `re.findall(r"\b[a-zA-Z][a-zA-Z0-9_-]+\b", s)`: left-to-right scan.
A match starts at a letter not preceded by a word character, greedily takes
the run of token characters, and backtracks over trailing hyphens until the
closing boundary holds; matches shorter than two characters fail.  The
first argument is recursion fuel: every step consumes at least one input
character, so any fuel above the input length is never exhausted. -/
def scanTokensF : Nat → Bool → Str → List Str
  | 0, _, _ => []
  | Nat.succ _, _, [] => []
  | Nat.succ fuel, prevW, c :: rest =>
    if isAsciiLetter c && !prevW then
      let run := rest.takeWhile isTokChar
      let tok := dropTrailingHyphens (c :: run)
      if 2 ≤ tok.length then
        tok :: scanTokensF fuel (isWordChar ((c :: run).getLastD c)) (rest.dropWhile isTokChar)
      else scanTokensF fuel true rest
    else scanTokensF fuel (isWordChar c) rest

/-- The token list of the keyword regex over a whole string. -/
def scanTokens (prevW : Bool) (s : Str) : List Str :=
  scanTokensF (s.length + 1) prevW s

/-- The fixed stop-word set of `extract_keywords`. -/
def stop_words : List Str :=
  [str "the", str "a", str "an", str "is", str "are", str "was", str "were",
   str "be", str "been", str "being",
   str "have", str "has", str "had", str "do", str "does", str "did",
   str "will", str "would", str "could",
   str "should", str "may", str "might", str "must", str "shall", str "can",
   str "to", str "of", str "in",
   str "for", str "on", str "with", str "at", str "by", str "from",
   str "as", str "into", str "through",
   str "during", str "before", str "after", str "above", str "below",
   str "between", str "under",
   str "again", str "further", str "then", str "once", str "here",
   str "there", str "when", str "where",
   str "why", str "how", str "all", str "each", str "few", str "more",
   str "most", str "other", str "some",
   str "such", str "no", str "nor", str "not", str "only", str "own",
   str "same", str "so", str "than",
   str "too", str "very", str "just", str "but", str "and", str "or",
   str "if", str "this", str "that",
   str "these", str "those", str "it", str "its", str "i", str "we",
   str "you", str "he", str "she", str "they",
   str "added", str "updated", str "created", str "fixed", str "issue",
   str "bd", str "see", str "also"]

/-- `extract_keywords`: lowercase the text, extract regex tokens, and keep
those not in the stop-word set and longer than two characters. -/
def extract_keywords (text : Str) : List Str :=
  (scanTokens false (pyLower text)).filter
    (fun w => !stop_words.contains w && 2 < w.length)

example : extract_keywords (str "Caching layer causes stale reads") =
    [str "caching", str "layer", str "causes", str "stale", str "reads"] := by decide

example : extract_keywords (str "The re-use of x2 in stale-reads- bd") =
    [str "re-use", str "stale-reads"] := by decide

/-- A `collections.Counter` as an insertion-ordered association list:
the key order is the order in which keys were first counted. -/
abbrev KCounter := List (Str × Nat)

/-- `counter[kw] += 1`: bump an existing key in place, or append a new key. -/
def counterAdd (c : KCounter) (k : Str) : KCounter :=
  if c.any (fun p => p.1 = k) then
    c.map (fun p => if p.1 = k then (p.1, p.2 + 1) else p)
  else c ++ [(k, 1)]

/-- Count every keyword of a list in order. -/
def counterAddAll (c : KCounter) (ks : List Str) : KCounter :=
  ks.foldl counterAdd c

/-- The `keyword_dates` dict: keyword → set of dates, the set modelled as a
duplicate-free list (its order is irrelevant, `sorted` is applied later). -/
abbrev DateIndex := List (Str × List Str)

/-- `keyword_dates.setdefault(kw, set()).add(date)`. -/
def datesAdd (m : DateIndex) (k : Str) (d : Str) : DateIndex :=
  if m.any (fun p => p.1 = k) then
    m.map (fun p =>
      if p.1 = k then (p.1, if p.2.contains d then p.2 else p.2 ++ [d]) else p)
  else m ++ [(k, [d])]

/-- `keyword_dates.get(kw, [])`. -/
def datesGet (m : DateIndex) (k : Str) : List Str :=
  match m.find? (fun p => p.1 = k) with
  | some p => p.2
  | none => []

/-- Stable descending insertion by count: the new pair goes in front of the
first entry whose count is not larger.  Used to model
`Counter.most_common`, which is documented as
`sorted(items, key=count, reverse=True)` with a stable sort. -/
def insertByCount (x : Str × Nat) : KCounter → KCounter
  | [] => [x]
  | y :: ys => if y.2 ≤ x.2 then x :: y :: ys else y :: insertByCount x ys

/-- Stable sort of a counter by descending count. -/
def sortByCountDesc : KCounter → KCounter
  | [] => []
  | x :: xs => insertByCount x (sortByCountDesc xs)

/-- `Counter.most_common(n)`. -/
def mostCommon (c : KCounter) (n : Nat) : KCounter :=
  (sortByCountDesc c).take n

/-- Python string `<`: lexicographic comparison by code point, a proper
prefix being smaller. -/
def strLt : Str → Str → Bool
  | [], [] => false
  | [], _ :: _ => true
  | _ :: _, [] => false
  | a :: as, b :: bs => if a < b then true else if b < a then false else strLt as bs

/-- Ascending insertion by `strLt`. -/
def insertAsc (x : Str) : List Str → List Str
  | [] => [x]
  | y :: ys => if strLt x y then x :: y :: ys else y :: insertAsc x ys

/-- Python `sorted` on a set of strings: ascending lexicographic order. -/
def sortAsc : List Str → List Str
  | [] => []
  | x :: xs => insertAsc x (sortAsc xs)

/-- The mutable aggregation state of `analyze_recurring_themes`:
four keyword counters and the discovery/question date index. -/
structure AggState where
  dc : KCounter
  ic : KCounter
  qc : KCounter
  pc : KCounter
  kd : DateIndex
deriving Repr, DecidableEq

/-- The body of the `for r in reflections` loop: count the keywords of each
category item and record dates for discoveries and open questions. -/
def aggStep (st : AggState) (r : Reflection) : AggState :=
  let date := r.date
  let p1 := r.discoveries.foldl
    (fun (p : KCounter × DateIndex) item =>
      (extract_keywords item).foldl
        (fun (q : KCounter × DateIndex) kw => (counterAdd q.1 kw, datesAdd q.2 kw date)) p)
    (st.dc, st.kd)
  let ic := r.improvements_made.foldl
    (fun c item => counterAddAll c (extract_keywords item)) st.ic
  let p2 := r.open_questions.foldl
    (fun (p : KCounter × DateIndex) item =>
      (extract_keywords item).foldl
        (fun (q : KCounter × DateIndex) kw => (counterAdd q.1 kw, datesAdd q.2 kw date)) p)
    (st.qc, p1.2)
  let pc := r.patterns_to_watch.foldl
    (fun c item => counterAddAll c (extract_keywords item)) st.pc
  { dc := p1.1, ic := ic, qc := p2.1, pc := pc, kd := p2.2 }

/-- The full counting pass over the reflection list. -/
def aggStats (rs : List Reflection) : AggState :=
  rs.foldl aggStep { dc := [], ic := [], qc := [], pc := [], kd := [] }

/-- The returned aggregate: four truncated frequency tables and the
recurrence table (keyword, count, sorted date list). -/
structure Themes where
  discovery_keywords : KCounter
  improvement_keywords : KCounter
  question_keywords : KCounter
  pattern_keywords : KCounter
  recurring_across_sessions : List (Str × Nat × List Str)
deriving Repr, DecidableEq

/-- `analyze_recurring_themes`: aggregate, build the recurrence dict from
`discovery_keywords.most_common(20)` filtered to count ≥ 2, and truncate
the four frequency tables. -/
def analyze_recurring_themes (rs : List Reflection) : Themes :=
  let st := aggStats rs
  { discovery_keywords := mostCommon st.dc 15
    improvement_keywords := mostCommon st.ic 15
    question_keywords := mostCommon st.qc 10
    pattern_keywords := mostCommon st.pc 10
    recurring_across_sessions :=
      ((mostCommon st.dc 20).filter (fun p => 2 ≤ p.2)).map
        (fun p => (p.1, p.2, sortAsc (datesGet st.kd p.1))) }

/-- Lookup in a frequency table (Python `dict` access). -/
def lookupCount (t : KCounter) (k : Str) : Option Nat :=
  (t.find? (fun p => p.1 = k)).map (fun p => p.2)

/-- Lookup in the recurrence table. -/
def lookupRec (t : List (Str × Nat × List Str)) (k : Str) : Option (Nat × List Str) :=
  (t.find? (fun p => p.1 = k)).map (fun p => p.2)

example : parse_reflection_file (str "2025-01-02-my-topic") (str "## Discoveries\n- [x] Fix bug\n- stale reads") =
    { file := str "2025-01-02-my-topic", date := str "2025-01-02", topic := str "my topic",
      summary := [], discoveries := [str "Fix bug", str "stale reads"],
      improvements_made := [], issues_created := [], open_questions := [],
      patterns_to_watch := [], anti_patterns := [] } := by decide

/-- The six record categories. -/
inductive SectionCat
  | disc | impr | iss | ques | patt | anti
deriving Repr, DecidableEq

/-- Modelled from the spec's ordered rule list of section 4.1: each rule is
a substring condition on the lowercased heading paired with its category. -/
def specRules : List ((Str → Bool) × SectionCat) :=
  [(fun n => substrMem (str "discover") n ||
      (substrMem (str "pattern") n && !substrMem (str "watch") n), SectionCat.disc),
   (fun n => substrMem (str "improvement") n && substrMem (str "made") n, SectionCat.impr),
   (fun n => substrMem (str "issue") n || substrMem (str "created") n, SectionCat.iss),
   (fun n => substrMem (str "question") n, SectionCat.ques),
   (fun n => substrMem (str "watch") n || substrMem (str "pattern") n, SectionCat.patt),
   (fun n => substrMem (str "anti") n, SectionCat.anti)]

/-- First matching rule wins. -/
def firstMatchCat (n : Str) : Option SectionCat :=
  (specRules.find? (fun p => p.1 n)).map (fun p => p.2)

/-- The spec's classification: append the items to the category of the
first matching rule, or discard them when no rule matches. -/
def specSaveSection (r : Reflection) (name : Str) (items : List Str) : Reflection :=
  match firstMatchCat (pyLower name) with
  | some SectionCat.disc => { r with discoveries := r.discoveries ++ items }
  | some SectionCat.impr => { r with improvements_made := r.improvements_made ++ items }
  | some SectionCat.iss => { r with issues_created := r.issues_created ++ items }
  | some SectionCat.ques => { r with open_questions := r.open_questions ++ items }
  | some SectionCat.patt => { r with patterns_to_watch := r.patterns_to_watch ++ items }
  | some SectionCat.anti => { r with anti_patterns := r.anti_patterns ++ items }
  | none => r

/-- C1: `_save_section` classifies every heading by the spec's six ordered
substring rules with first match winning; and a heading whose lowercased
name contains both "pattern" and "watch" but not "discover", not
"improvement"+"made", not "issue", not "created" and not "question" falls
to rule 5 and is classified to `patterns_to_watch`, not `discoveries`. -/
theorem c1_save_section_follows_spec_rules :
    (∀ r s items, saveSection r s items = specSaveSection r s items) ∧
    (∀ r s items,
      substrMem (str "pattern") (pyLower s) = true →
      substrMem (str "watch") (pyLower s) = true →
      substrMem (str "discover") (pyLower s) = false →
      (substrMem (str "improvement") (pyLower s) &&
        substrMem (str "made") (pyLower s)) = false →
      substrMem (str "issue") (pyLower s) = false →
      substrMem (str "created") (pyLower s) = false →
      substrMem (str "question") (pyLower s) = false →
      saveSection r s items =
        { r with patterns_to_watch := r.patterns_to_watch ++ items }) := by
  constructor
  · intro r s items
    simp only [saveSection, specSaveSection, firstMatchCat, specRules, List.find?]
    cases h1 : (substrMem (str "discover") (pyLower s) ||
        (substrMem (str "pattern") (pyLower s) && !substrMem (str "watch") (pyLower s))) <;>
    cases h2 : (substrMem (str "improvement") (pyLower s) &&
        substrMem (str "made") (pyLower s)) <;>
    cases h3 : (substrMem (str "issue") (pyLower s) ||
        substrMem (str "created") (pyLower s)) <;>
    cases h4 : substrMem (str "question") (pyLower s) <;>
    cases h5 : (substrMem (str "watch") (pyLower s) ||
        substrMem (str "pattern") (pyLower s)) <;>
    cases h6 : substrMem (str "anti") (pyLower s) <;>
    simp [h1, h2, h3, h4, h5, h6]
  · intro r s items hp hw hd him hi hc hq
    simp only [saveSection]
    simp [hp, hw, hd, him, hi, hc, hq]

/-- C1 witness at the heading "Patterns to Watch". -/
theorem c1_save_section_follows_spec_rules_witness :
    saveSection (initReflection (str "f") (str "f")) (str "Patterns to Watch") [str "x"] =
      { initReflection (str "f") (str "f") with
        patterns_to_watch :=
          (initReflection (str "f") (str "f")).patterns_to_watch ++ [str "x"] } :=
  c1_save_section_follows_spec_rules.2 _ _ _
    (by decide) (by decide) (by decide) (by decide) (by decide) (by decide) (by decide)

/-- Modelled from the spec's words: a date component `YYYY-MM-DD`
(four digits, hyphen, two digits, hyphen, two digits). -/
def specDateShape (d : Str) : Prop :=
  ∃ y1 y2 y3 y4 m1 m2 d1 d2 : Char,
    d = [y1, y2, y3, y4, '-', m1, m2, '-', d1, d2] ∧
    y1.isDigit = true ∧ y2.isDigit = true ∧ y3.isDigit = true ∧ y4.isDigit = true ∧
    m1.isDigit = true ∧ m2.isDigit = true ∧ d1.isDigit = true ∧ d2.isDigit = true

/-- Modelled from the spec's words: the filename matches `YYYY-MM-DD-<slug>`
with a nonempty slug. -/
def specFilenameMatch (fn : Str) : Prop :=
  ∃ d s, specDateShape d ∧ s ≠ ([] : Str) ∧ fn = d ++ '-' :: s

theorem takeWhile_all {p : α → Bool} :
    ∀ {l : List α}, (∀ a ∈ l, p a = true) → l.takeWhile p = l := by
  intro l
  induction l with
  | nil => intro _; rfl
  | cons a t ih =>
    intro h
    simp only [List.takeWhile]
    rw [h a (by simp)]
    simp [ih (fun b hb => h b (by simp [hb]))]

theorem reMatch_some_shape {fn : Str} {p : Str × Str} :
    reMatchDateTopic fn = some p → specFilenameMatch fn := by
  intro h
  unfold reMatchDateTopic at h
  split at h
  · rename_i y1 y2 y3 y4 h1 m1 m2 h2 d1 d2 h3 rest
    simp only at h
    split at h
    · rename_i hcond
      split at h
      · exact absurd h (by simp)
      · rename_i hne
        simp only [Bool.and_eq_true, decide_eq_true_eq] at hcond
        obtain ⟨⟨⟨⟨⟨⟨⟨⟨⟨⟨hy1, hy2⟩, hy3⟩, hy4⟩, hh1⟩, hm1⟩, hm2⟩, hh2⟩, hd1⟩, hd2⟩, hh3⟩ := hcond
        refine ⟨[y1, y2, y3, y4, '-', m1, m2, '-', d1, d2], rest,
          ⟨y1, y2, y3, y4, m1, m2, d1, d2, rfl, hy1, hy2, hy3, hy4, hm1, hm2, hd1, hd2⟩,
          ?_, ?_⟩
        · intro hrest
          subst hrest
          simp at hne
        · subst hh1; subst hh2; subst hh3
          simp
    · exact absurd h (by simp)
  · exact absurd h (by simp)

/-- C2: for every newline-free filename stem, if it matches
`YYYY-MM-DD-<slug>` then `date` is the date component and `topic` is the
slug with every hyphen replaced by a space; otherwise `date` is empty and
`topic` is the whole filename. -/
theorem c2_parse_filename_date_topic :
    ∀ fn : Str, '\n' ∉ fn →
      (∀ d s, specDateShape d → s ≠ ([] : Str) → fn = d ++ '-' :: s →
        parseFilename fn = (d, pyReplace s '-' ' ')) ∧
      (¬ specFilenameMatch fn → parseFilename fn = ([], fn)) := by
  intro fn hnl
  constructor
  · intro d s hd hs hfn
    obtain ⟨y1, y2, y3, y4, m1, m2, d1, d2, hdeq, hy1, hy2, hy3, hy4, hm1, hm2, hd1, hd2⟩ := hd
    subst hdeq
    subst hfn
    have hnls : '\n' ∉ s := by
      intro hmem
      exact hnl (by simp [hmem])
    cases s with
    | nil => exact absurd rfl hs
    | cons a t =>
      have ha : a ≠ '\n' := fun heq => hnls (by simp [heq])
      have htwt : t.takeWhile (fun c => !decide (c = '\n')) = t := by
        apply takeWhile_all
        intro b hb
        simp only [Bool.not_eq_true', decide_eq_false_iff_not]
        intro heq
        exact hnls (by simp [heq ▸ hb])
      simp [parseFilename, reMatchDateTopic, hy1, hy2, hy3, hy4, hm1, hm2, hd1, hd2, ha, htwt]
  · intro hnm
    cases h : reMatchDateTopic fn with
    | none => simp [parseFilename, h]
    | some p => exact absurd (reMatch_some_shape h) hnm

theorem processLine_other {rawLine : Str}
    (h1 : (str "## ").isPrefixOf (pyStrip rawLine) = false)
    (h2 : (str "### ").isPrefixOf (pyStrip rawLine) = false)
    (h3 : (str "- ").isPrefixOf (pyStrip rawLine) = false) (st : ParseState) :
    processLine st rawLine =
      if ¬(pyStrip rawLine).isEmpty ∧ st.cur = some (str "session summary")
      then { st with r := { st.r with summary := pyStrip rawLine } } else st := by
  unfold processLine
  simp only [h1, h2, h3]
  simp

theorem processLine_listItem {rawLine : Str}
    (h1 : (str "## ").isPrefixOf (pyStrip rawLine) = false)
    (h2 : (str "### ").isPrefixOf (pyStrip rawLine) = false)
    (h3 : (str "- ").isPrefixOf (pyStrip rawLine) = true) (st : ParseState) :
    processLine st rawLine =
      if (stripCheckbox (pyStrip ((pyStrip rawLine).drop 2))).isEmpty = true then st
      else { st with
        items := st.items ++ [stripCheckbox (pyStrip ((pyStrip rawLine).drop 2))] } := by
  unfold processLine
  simp only [h1, h2, h3]
  simp

/-- C2 witness at the filename `2025-01-02-my-topic`. -/
theorem c2_parse_filename_date_topic_witness :
    parseFilename (str "2025-01-02-my-topic") = (str "2025-01-02", str "my topic") :=
  (c2_parse_filename_date_topic (str "2025-01-02-my-topic") (by decide)).1
    (str "2025-01-02") (str "my-topic")
    ⟨'2', '0', '2', '5', '0', '1', '0', '2', by decide,
      by decide, by decide, by decide, by decide, by decide, by decide, by decide, by decide⟩
    (by decide) (by decide)

/-- C8: the list-item lines `- [x] Fix bug` and `- Fix bug` produce the
same accumulated item text `Fix bug`, and a leading `[ ] ` token is
likewise stripped before the item text is kept. -/
theorem c8_checkbox_stripping_idempotent :
    ∀ st : ParseState,
      processLine st (str "- [x] Fix bug") = processLine st (str "- Fix bug") ∧
      processLine st (str "- Fix bug") = { st with items := st.items ++ [str "Fix bug"] } ∧
      processLine st (str "- [ ] Fix bug") = { st with items := st.items ++ [str "Fix bug"] } := by
  intro st
  have e1 := @processLine_listItem (str "- [x] Fix bug")
    (by decide) (by decide) (by decide) st
  have e2 := @processLine_listItem (str "- Fix bug")
    (by decide) (by decide) (by decide) st
  have e3 := @processLine_listItem (str "- [ ] Fix bug")
    (by decide) (by decide) (by decide) st
  rw [show stripCheckbox (pyStrip ((pyStrip (str "- [x] Fix bug")).drop 2)) = str "Fix bug"
    from by decide] at e1
  rw [show stripCheckbox (pyStrip ((pyStrip (str "- Fix bug")).drop 2)) = str "Fix bug"
    from by decide] at e2
  rw [show stripCheckbox (pyStrip ((pyStrip (str "- [ ] Fix bug")).drop 2)) = str "Fix bug"
    from by decide] at e3
  rw [if_neg (by decide)] at e1 e2 e3
  exact ⟨e1.trans e2.symm, e2, e3⟩

/-- C9 counterexample: the list-item line `- [x] ` (checkbox with nothing
after it) is NOT discarded — global stripping removes the trailing space
first, so the checkbox token no longer matches and the literal text `[x]`
is kept and classified. -/
theorem c9_empty_checkbox_item_kept :
    (parse_reflection_file (str "f") (str "## Open Questions\n- [x] ")).open_questions
      = [str "[x]"] ∧ str "[x]" ≠ ([] : Str) := by decide

/-- All items of all six category lists of a record are nonempty. -/
def itemsNE (r : Reflection) : Prop :=
  (∀ it ∈ r.discoveries, it ≠ ([] : Str)) ∧
  (∀ it ∈ r.improvements_made, it ≠ ([] : Str)) ∧
  (∀ it ∈ r.issues_created, it ≠ ([] : Str)) ∧
  (∀ it ∈ r.open_questions, it ≠ ([] : Str)) ∧
  (∀ it ∈ r.patterns_to_watch, it ≠ ([] : Str)) ∧
  (∀ it ∈ r.anti_patterns, it ≠ ([] : Str))

theorem saveSection_fields (r : Reflection) (s : Str) (items : List Str) :
    ((saveSection r s items).discoveries = r.discoveries ∨
      (saveSection r s items).discoveries = r.discoveries ++ items) ∧
    ((saveSection r s items).improvements_made = r.improvements_made ∨
      (saveSection r s items).improvements_made = r.improvements_made ++ items) ∧
    ((saveSection r s items).issues_created = r.issues_created ∨
      (saveSection r s items).issues_created = r.issues_created ++ items) ∧
    ((saveSection r s items).open_questions = r.open_questions ∨
      (saveSection r s items).open_questions = r.open_questions ++ items) ∧
    ((saveSection r s items).patterns_to_watch = r.patterns_to_watch ∨
      (saveSection r s items).patterns_to_watch = r.patterns_to_watch ++ items) ∧
    ((saveSection r s items).anti_patterns = r.anti_patterns ∨
      (saveSection r s items).anti_patterns = r.anti_patterns ++ items) ∧
    (saveSection r s items).summary = r.summary ∧
    (saveSection r s items).date = r.date := by
  unfold saveSection
  repeat' split <;> try simp

theorem append_all_ne {l1 l2 : List Str} (h1 : ∀ it ∈ l1, it ≠ ([] : Str))
    (h2 : ∀ it ∈ l2, it ≠ ([] : Str)) : ∀ it ∈ l1 ++ l2, it ≠ ([] : Str) := by
  intro it hit
  rcases List.mem_append.1 hit with h | h
  · exact h1 _ h
  · exact h2 _ h

theorem saveSection_itemsNE {r : Reflection} {s : Str} {items : List Str}
    (hr : itemsNE r) (hit : ∀ it ∈ items, it ≠ ([] : Str)) :
    itemsNE (saveSection r s items) := by
  obtain ⟨f1, f2, f3, f4, f5, f6, _, _⟩ := saveSection_fields r s items
  obtain ⟨g1, g2, g3, g4, g5, g6⟩ := hr
  refine ⟨?_, ?_, ?_, ?_, ?_, ?_⟩
  · rcases f1 with h | h <;> rw [h]
    · exact g1
    · exact append_all_ne g1 hit
  · rcases f2 with h | h <;> rw [h]
    · exact g2
    · exact append_all_ne g2 hit
  · rcases f3 with h | h <;> rw [h]
    · exact g3
    · exact append_all_ne g3 hit
  · rcases f4 with h | h <;> rw [h]
    · exact g4
    · exact append_all_ne g4 hit
  · rcases f5 with h | h <;> rw [h]
    · exact g5
    · exact append_all_ne g5 hit
  · rcases f6 with h | h <;> rw [h]
    · exact g6
    · exact append_all_ne g6 hit

/-- The loop invariant: accumulated items and all stored items are nonempty. -/
def stateNE (st : ParseState) : Prop :=
  (∀ it ∈ st.items, it ≠ ([] : Str)) ∧ itemsNE st.r

theorem flushIf_itemsNE {st : ParseState} (h : stateNE st) : itemsNE (flushIf st) := by
  unfold flushIf
  split
  · split
    · exact saveSection_itemsNE h.2 h.1
    · exact h.2
  · exact h.2

theorem processLine_stateNE {st : ParseState} (h : stateNE st) (rawLine : Str) :
    stateNE (processLine st rawLine) := by
  unfold processLine
  simp only []
  split
  · exact ⟨by simp, flushIf_itemsNE h⟩
  · split
    · exact h
    · split
      · split
        · exact h
        · rename_i hne
          refine ⟨?_, h.2⟩
          intro it hit
          rcases List.mem_append.1 hit with hmem | hmem
          · exact h.1 _ hmem
          · simp only [List.mem_singleton] at hmem
            subst hmem
            intro heq
            rw [heq] at hne
            exact hne rfl
      · split
        · exact ⟨h.1, h.2.1, h.2.2⟩
        · exact h

theorem foldl_preserve {β α : Type} {P : β → Prop} {f : β → α → β}
    (h : ∀ st a, P st → P (f st a)) :
    ∀ (l : List α) (st : β), P st → P (List.foldl f st l) := by
  intro l
  induction l with
  | nil => intro st hst; exact hst
  | cons a t ih => intro st hst; exact ih _ (h _ _ hst)

/-- C9 as amended: a line whose stripped text is just the list marker
(`- `) is not recognized as a list item — the buffer and all category lists
are unchanged; but `- [x] ` is stripped to `- [x]` before the checkbox test,
so the literal item `[x]` IS appended; consequently every item stored in a
category list is nonempty, but not every visually empty checkbox line is
discarded. -/
theorem c9_empty_items_never_stored :
    (∀ st : ParseState, (processLine st (str "- ")).items = st.items ∧
      (processLine st (str "- ")).r.discoveries = st.r.discoveries ∧
      (processLine st (str "- ")).r.improvements_made = st.r.improvements_made ∧
      (processLine st (str "- ")).r.issues_created = st.r.issues_created ∧
      (processLine st (str "- ")).r.open_questions = st.r.open_questions ∧
      (processLine st (str "- ")).r.patterns_to_watch = st.r.patterns_to_watch ∧
      (processLine st (str "- ")).r.anti_patterns = st.r.anti_patterns) ∧
    (∀ st : ParseState,
      processLine st (str "- [x] ") = { st with items := st.items ++ [str "[x]"] }) ∧
    (∀ fn content, itemsNE (parse_reflection_file fn content)) := by
  refine ⟨?_, ?_, ?_⟩
  · intro st
    rw [processLine_other (by decide) (by decide) (by decide)]
    split <;> simp
  · intro st
    have e := @processLine_listItem (str "- [x] ")
      (by decide) (by decide) (by decide) st
    rw [show stripCheckbox (pyStrip ((pyStrip (str "- [x] ")).drop 2)) = str "[x]"
      from by decide] at e
    rw [if_neg (by decide)] at e
    exact e
  · intro fn content
    have hstep : ∀ (st : ParseState) (l : Str), stateNE st → stateNE (processLine st l) :=
      fun _ l h => processLine_stateNE h l
    exact flushIf_itemsNE
      (foldl_preserve hstep (splitLines content) _ ⟨by simp, by simp [itemsNE, initReflection]⟩)

/-- C9 amended-claim witness: the invariant evaluated on a concrete document. -/
theorem c9_empty_items_never_stored_witness :
    ∀ it ∈ (parse_reflection_file (str "f") (str "## Open Questions\n- [x] \n- q1")).open_questions,
      it ≠ ([] : Str) :=
  (c9_empty_items_never_stored.2.2 (str "f") (str "## Open Questions\n- [x] \n- q1")).2.2.2.1

/-- Total number of items stored across the six category lists. -/
def totalItems (r : Reflection) : Nat :=
  r.discoveries.length + r.improvements_made.length + r.issues_created.length +
  r.open_questions.length + r.patterns_to_watch.length + r.anti_patterns.length

/-- Number of list-item lines of a document (stripped lines starting `- `). -/
def countItemLines (content : Str) : Nat :=
  ((splitLines content).filter (fun l => (str "- ").isPrefixOf (pyStrip l))).length

theorem saveSection_totalItems_le (r : Reflection) (s : Str) (items : List Str) :
    totalItems (saveSection r s items) ≤ totalItems r + items.length := by
  unfold saveSection
  repeat' split
  all_goals simp only [totalItems, List.length_append]
  all_goals omega

theorem flushIf_totalItems_le (st : ParseState) :
    totalItems (flushIf st) ≤ totalItems st.r + st.items.length := by
  unfold flushIf
  split
  · split
    · exact saveSection_totalItems_le _ _ _
    · exact Nat.le_add_right _ _
  · exact Nat.le_add_right _ _

theorem processLine_totalItems_le (st : ParseState) (rawLine : Str) :
    totalItems (processLine st rawLine).r + (processLine st rawLine).items.length ≤
      totalItems st.r + st.items.length +
        (if (str "- ").isPrefixOf (pyStrip rawLine) then 1 else 0) := by
  have hf := flushIf_totalItems_le st
  unfold processLine
  repeat' split
  all_goals simp only [totalItems, List.length_append, List.length_cons,
    List.length_nil] at hf ⊢
  all_goals omega

theorem foldl_totalItems_le :
    ∀ (lines : List Str) (st : ParseState),
      totalItems (List.foldl processLine st lines).r +
          (List.foldl processLine st lines).items.length ≤
        totalItems st.r + st.items.length +
          (lines.filter (fun l => (str "- ").isPrefixOf (pyStrip l))).length := by
  intro lines
  induction lines with
  | nil => intro st; simp
  | cons a t ih =>
    intro st
    simp only [List.foldl_cons, List.filter_cons]
    have h1 := processLine_totalItems_le st a
    have h2 := ih (processLine st a)
    cases hpa : (str "- ").isPrefixOf (pyStrip a) with
    | false =>
      simp [hpa] at h1 ⊢
      omega
    | true =>
      simp [hpa] at h1 ⊢
      omega

/-- C3: for every document text, the total number of items stored across
the six category lists is at most the number of list-item lines of the
text; and a section whose lowercased name matches none of the six rules'
substrings contributes its items to no category — `_save_section` leaves
the record unchanged. -/
theorem c3_classified_items_bounded_by_item_lines :
    (∀ fn content,
      totalItems (parse_reflection_file fn content) ≤ countItemLines content) ∧
    (∀ r s items,
      substrMem (str "discover") (pyLower s) = false →
      substrMem (str "pattern") (pyLower s) = false →
      (substrMem (str "improvement") (pyLower s) && substrMem (str "made") (pyLower s)) = false →
      substrMem (str "issue") (pyLower s) = false →
      substrMem (str "created") (pyLower s) = false →
      substrMem (str "question") (pyLower s) = false →
      substrMem (str "watch") (pyLower s) = false →
      substrMem (str "anti") (pyLower s) = false →
      saveSection r s items = r) := by
  constructor
  · intro fn content
    have h2 := foldl_totalItems_le (splitLines content)
      { cur := none, items := [], r := initReflection fn fn }
    have h1 := flushIf_totalItems_le
      (List.foldl processLine { cur := none, items := [], r := initReflection fn fn }
        (splitLines content))
    have h0 : totalItems (initReflection fn fn) = 0 := by
      simp [totalItems, initReflection]
    simp only [List.length_nil] at h2
    unfold parse_reflection_file countItemLines
    omega
  · intro r s items h1 h2 h3 h4 h5 h6 h7 h8
    unfold saveSection
    simp [h1, h2, h3, h4, h5, h6, h7, h8]

/-- C3 witness: a document whose only section is `## Random Notes`. -/
theorem c3_classified_items_bounded_by_item_lines_witness :
    totalItems (parse_reflection_file (str "f") (str "## Random Notes\n- a\n- b")) ≤
      countItemLines (str "## Random Notes\n- a\n- b") ∧
    saveSection (initReflection (str "f") (str "f")) (str "random notes") [str "a"] =
      initReflection (str "f") (str "f") :=
  ⟨c3_classified_items_bounded_by_item_lines.1 (str "f") (str "## Random Notes\n- a\n- b"),
    c3_classified_items_bounded_by_item_lines.2 _ _ _
      (by decide) (by decide) (by decide) (by decide)
      (by decide) (by decide) (by decide) (by decide)⟩

/-- The try/except around `filepath.read_text()`: an unreadable file is
`none`, and `parse_reflection_file` then returns `None`; otherwise the text
is parsed unconditionally. -/
def parseFileResult (fn : Str) (readResult : Option Str) : Option Reflection :=
  match readResult with
  | none => none
  | some content => some (parse_reflection_file fn content)

/-- The caller's loop in `main`: `parsed = parse_reflection_file(...);
if parsed: reflections.append(parsed)`. -/
def processBatch (docs : List (Str × Option Str)) : List Reflection :=
  docs.foldl (fun acc d =>
    match parseFileResult d.1 d.2 with
    | some r => acc ++ [r]
    | none => acc) []

theorem processBatch_eq_filterMap :
    ∀ (docs : List (Str × Option Str)) (acc : List Reflection),
      docs.foldl (fun acc d =>
        match parseFileResult d.1 d.2 with
        | some r => acc ++ [r]
        | none => acc) acc =
      acc ++ docs.filterMap (fun d => parseFileResult d.1 d.2) := by
  intro docs
  induction docs with
  | nil => intro acc; simp
  | cons d t ih =>
    intro acc
    simp only [List.foldl_cons, List.filterMap_cons]
    cases h : parseFileResult d.1 d.2 with
    | none => simp [h, ih]
    | some r => simp [h, ih]

/-- C7: an unreadable document (read result `none`) is silently excluded
from the batch, leaving every other document's record unaffected; and a
readable document always yields a parsed record — the line-scanning parse
is a total function, every line being consumed by a classification branch
or ignored. -/
theorem c7_unreadable_skipped_readable_total :
    (∀ (xs ys : List (Str × Option Str)) (fn : Str),
      processBatch (xs ++ (fn, none) :: ys) = processBatch (xs ++ ys)) ∧
    (∀ (fn content : Str) (docs : List (Str × Option Str)),
      processBatch ((fn, some content) :: docs) =
        parse_reflection_file fn content :: processBatch docs) := by
  constructor
  · intro xs ys fn
    unfold processBatch
    rw [processBatch_eq_filterMap, processBatch_eq_filterMap]
    simp [parseFileResult]
  · intro fn content docs
    unfold processBatch
    rw [processBatch_eq_filterMap, processBatch_eq_filterMap]
    simp [parseFileResult]

/-- A document record as in the spec's end-to-end property: dated `d`,
with a discoveries section containing the single given item. -/
def exemplarDoc (d : Str) : Reflection :=
  { file := [], date := d, topic := [], summary := [],
    discoveries := [str "Caching layer causes stale reads"],
    improvements_made := [], issues_created := [], open_questions := [],
    patterns_to_watch := [], anti_patterns := [] }

/-- C6: for the two documents dated 2025-01-01 and 2025-01-02 each holding
the discovery "Caching layer causes stale reads", both "caching" and
"stale" get discovery count 2, and "caching" recurs with the sorted date
list [2025-01-01, 2025-01-02]. -/
theorem c6_end_to_end_caching_recurrence :
    lookupCount (analyze_recurring_themes
        [exemplarDoc (str "2025-01-01"), exemplarDoc (str "2025-01-02")]).discovery_keywords
      (str "caching") = some 2 ∧
    lookupCount (analyze_recurring_themes
        [exemplarDoc (str "2025-01-01"), exemplarDoc (str "2025-01-02")]).discovery_keywords
      (str "stale") = some 2 ∧
    lookupRec (analyze_recurring_themes
        [exemplarDoc (str "2025-01-01"), exemplarDoc (str "2025-01-02")]).recurring_across_sessions
      (str "caching") = some (2, [str "2025-01-01", str "2025-01-02"]) := by decide

/-- The discovery document used for the undated-file recurrence example. -/
def undatedContent : Str := str "## Discoveries\n- Caching layer causes stale reads"

/-- C10: a document whose filename does not match the date pattern carries
the empty `date`, that empty string enters the recurrence-date index like
any other date, and the empty string sorts (strictly) before every
nonempty string, hence before every ISO date. -/
theorem c10_empty_date_recurrence :
    (parse_reflection_file (str "notes") undatedContent).date = ([] : Str) ∧
    lookupRec (analyze_recurring_themes
        [parse_reflection_file (str "notes") undatedContent,
         parse_reflection_file (str "2025-01-02-cache") undatedContent]).recurring_across_sessions
      (str "caching") = some (2, [([] : Str), str "2025-01-02"]) ∧
    (∀ s : Str, s ≠ [] → strLt [] s = true) := by
  refine ⟨by decide, by decide, ?_⟩
  intro s hs
  cases s with
  | nil => exact absurd rfl hs
  | cons a t => rfl

/-- C10 witness: the empty string sorts before the concrete date 2025-01-02. -/
theorem c10_empty_date_recurrence_witness :
    strLt ([] : Str) (str "2025-01-02") = true :=
  c10_empty_date_recurrence.2.2 (str "2025-01-02") (by decide)

theorem strLt_total_ne : ∀ {a b : Str}, a ≠ b → strLt a b = true ∨ strLt b a = true := by
  intro a
  induction a with
  | nil =>
    intro b hne
    cases b with
    | nil => exact absurd rfl hne
    | cons y ys => exact Or.inl rfl
  | cons x xs ih =>
    intro b hne
    cases b with
    | nil => exact Or.inr rfl
    | cons y ys =>
      rcases lt_trichotomy x y with h | h | h
      · exact Or.inl (by simp [strLt, h])
      · subst h
        have hne' : xs ≠ ys := fun he => hne (by rw [he])
        rcases ih hne' with h' | h'
        · exact Or.inl (by simp [strLt, lt_irrefl, h'])
        · exact Or.inr (by simp [strLt, lt_irrefl, h'])
      · exact Or.inr (by simp [strLt, h, not_lt_of_gt h])

theorem mem_insertAsc {z x : Str} : ∀ {l : List Str}, z ∈ insertAsc x l ↔ z = x ∨ z ∈ l := by
  intro l
  induction l with
  | nil => simp [insertAsc]
  | cons y ys ih =>
    simp only [insertAsc]
    split
    · simp [List.mem_cons]
    · simp only [List.mem_cons, ih]
      tauto

theorem mem_sortAsc {z : Str} : ∀ {l : List Str}, z ∈ sortAsc l ↔ z ∈ l := by
  intro l
  induction l with
  | nil => simp [sortAsc]
  | cons x xs ih => simp [sortAsc, mem_insertAsc, ih]

theorem chain_insertAsc {x : Str} :
    ∀ {l : List Str}, List.Chain' (fun a b => strLt a b = true) l → x ∉ l →
      List.Chain' (fun a b => strLt a b = true) (insertAsc x l) := by
  intro l
  induction l with
  | nil =>
    intro _ _
    simp [insertAsc]
  | cons y ys ih =>
    intro hl hx
    have hxy : x ≠ y := fun he => hx (by simp [he])
    have hx' : x ∉ ys := fun hm => hx (by simp [hm])
    simp only [insertAsc]
    split
    · exact List.Chain'.cons (by assumption) hl
    · rename_i hnxy
      have hyx : strLt y x = true := by
        rcases strLt_total_ne hxy with h | h
        · exact absurd h hnxy
        · exact h
      have hch := ih hl.tail hx'
      cases ys with
      | nil => exact List.chain'_pair.2 hyx
      | cons z zs =>
        rw [insertAsc] at hch ⊢
        split
        · rename_i hxz
          exact List.Chain'.cons hyx (List.Chain'.cons hxz hl.tail)
        · rename_i hnxz
          rw [if_neg hnxz] at hch
          exact List.Chain'.cons (List.chain'_cons.1 hl).1 hch

theorem sortAsc_chain : ∀ {l : List Str}, l.Nodup →
    List.Chain' (fun a b => strLt a b = true) (sortAsc l) := by
  intro l
  induction l with
  | nil => intro _; simp [sortAsc]
  | cons x xs ih =>
    intro h
    rcases List.nodup_cons.1 h with ⟨hx, hxs⟩
    exact chain_insertAsc (ih hxs) (fun hm => hx (mem_sortAsc.1 hm))

/-- Every date set stored in the index is duplicate-free. -/
def kdNodup (m : DateIndex) : Prop := ∀ p ∈ m, p.2.Nodup

theorem datesAdd_kdNodup {m : DateIndex} {k d : Str} (h : kdNodup m) :
    kdNodup (datesAdd m k d) := by
  unfold datesAdd
  split
  · intro p hp
    rcases List.mem_map.1 hp with ⟨q, hq, hqe⟩
    subst hqe
    split
    · rename_i hk
      split
      · exact h q hq
      · rename_i hcon
        refine List.Nodup.append (h q hq) (List.nodup_singleton d) ?_
        intro a ha hd
        simp only [List.mem_singleton] at hd
        subst hd
        exact hcon (by simpa [List.elem_iff] using ha)
    · exact h q hq
  · intro p hp
    rcases List.mem_append.1 hp with hp' | hp'
    · exact h p hp'
    · simp only [List.mem_singleton] at hp'
      subst hp'
      exact List.nodup_singleton d

theorem aggStep_kdNodup {st : AggState} (r : Reflection) (h : kdNodup st.kd) :
    kdNodup (aggStep st r).kd := by
  unfold aggStep
  dsimp only
  have hstep : ∀ (q : KCounter × DateIndex) (kw : Str), kdNodup q.2 →
      kdNodup (counterAdd q.1 kw, datesAdd q.2 kw r.date).2 :=
    fun q kw hq => datesAdd_kdNodup hq
  have hitem : ∀ (p : KCounter × DateIndex) (item : Str), kdNodup p.2 →
      kdNodup ((extract_keywords item).foldl
        (fun q kw => (counterAdd q.1 kw, datesAdd q.2 kw r.date)) p).2 :=
    fun p item hp => foldl_preserve hstep (extract_keywords item) p hp
  exact foldl_preserve hitem r.open_questions _
    (foldl_preserve hitem r.discoveries _ h)

theorem aggStats_kdNodup (rs : List Reflection) : kdNodup (aggStats rs).kd := by
  unfold aggStats
  have hstep : ∀ (st : AggState) (r : Reflection), kdNodup st.kd → kdNodup (aggStep st r).kd :=
    fun st r h => aggStep_kdNodup r h
  exact foldl_preserve hstep rs _ (fun p hp => absurd hp (List.not_mem_nil p))

theorem datesGet_nodup {m : DateIndex} (h : kdNodup m) (k : Str) :
    (datesGet m k).Nodup := by
  unfold datesGet
  cases hf : m.find? (fun p => p.1 = k) with
  | none => exact List.nodup_nil
  | some p => exact h p (List.mem_of_find?_eq_some hf)

/-- C4: every entry of the recurrence table has a discovery-keyword count
of at least 2, and its date list is strictly ascending in the Python
string order (sorted and duplicate-free). -/
theorem c4_recurrence_min_count_sorted_dates :
    ∀ (rs : List Reflection) (k : Str) (cnt : Nat) (ds : List Str),
      (k, cnt, ds) ∈ (analyze_recurring_themes rs).recurring_across_sessions →
      2 ≤ cnt ∧ List.Chain' (fun a b => strLt a b = true) ds := by
  intro rs k cnt ds hmem
  unfold analyze_recurring_themes at hmem
  dsimp only at hmem
  rcases List.mem_map.1 hmem with ⟨p, hp, heq⟩
  have h2 : 2 ≤ p.2 := by
    have := List.of_mem_filter hp
    simpa using this
  have hcnt : cnt = p.2 := congrArg (fun t => t.2.1) heq.symm
  have hds : ds = sortAsc (datesGet (aggStats rs).kd p.1) :=
    congrArg (fun t => t.2.2) heq.symm
  constructor
  · omega
  · rw [hds]
    exact sortAsc_chain (datesGet_nodup (aggStats_kdNodup rs) p.1)

/-- C4 witness: the concrete recurrence entry for "caching". -/
theorem c4_recurrence_min_count_sorted_dates_witness :
    2 ≤ 2 ∧ List.Chain' (fun a b => strLt a b = true)
      [str "2025-01-01", str "2025-01-02"] :=
  c4_recurrence_min_count_sorted_dates
    [exemplarDoc (str "2025-01-01"), exemplarDoc (str "2025-01-02")]
    (str "caching") 2 [str "2025-01-01", str "2025-01-02"] (by decide)

theorem mem_insertByCount {z x : Str × Nat} :
    ∀ {l : KCounter}, z ∈ insertByCount x l ↔ z = x ∨ z ∈ l := by
  intro l
  induction l with
  | nil => simp [insertByCount]
  | cons y ys ih =>
    simp only [insertByCount]
    split
    · simp [List.mem_cons]
    · simp only [List.mem_cons, ih]
      tauto

theorem insertByCount_pairwise {x : Str × Nat} :
    ∀ {l : KCounter}, List.Pairwise (fun p q : Str × Nat => q.2 ≤ p.2) l →
      List.Pairwise (fun p q : Str × Nat => q.2 ≤ p.2) (insertByCount x l) := by
  intro l
  induction l with
  | nil => intro _; simp [insertByCount]
  | cons y ys ih =>
    intro h
    rcases List.pairwise_cons.1 h with ⟨hy, hys⟩
    simp only [insertByCount]
    split
    · rename_i hle
      refine List.pairwise_cons.2 ⟨?_, h⟩
      intro q hq
      rcases List.mem_cons.1 hq with rfl | hq'
      · exact hle
      · exact le_trans (hy q hq') hle
    · rename_i hnle
      refine List.pairwise_cons.2 ⟨?_, ih hys⟩
      intro q hq
      rcases mem_insertByCount.1 hq with rfl | hq'
      · exact Nat.le_of_not_le hnle
      · exact hy q hq'

theorem sortByCountDesc_pairwise :
    ∀ l : KCounter, List.Pairwise (fun p q : Str × Nat => q.2 ≤ p.2) (sortByCountDesc l) := by
  intro l
  induction l with
  | nil => simp [sortByCountDesc]
  | cons x xs ih => exact insertByCount_pairwise ih

theorem filter_insertByCount (x : Str × Nat) (c : Nat) :
    ∀ l : KCounter, (insertByCount x l).filter (fun p => p.2 == c) =
      if x.2 == c then x :: l.filter (fun p => p.2 == c)
      else l.filter (fun p => p.2 == c) := by
  intro l
  induction l with
  | nil => cases hx : x.2 == c <;> simp [insertByCount, List.filter_cons, hx]
  | cons y ys ih =>
    simp only [insertByCount]
    split
    · cases hx : x.2 == c <;> simp [List.filter_cons, hx]
    · rename_i hnle
      cases hx : x.2 == c with
      | true =>
        have hxc : x.2 = c := eq_of_beq hx
        have hlt : x.2 < y.2 := Nat.lt_of_not_le hnle
        have hyne : y.2 ≠ c := by omega
        have hyc : (y.2 == c) = false := beq_eq_false_iff_ne.2 hyne
        simp [List.filter_cons, hyc, ih, hx]
      | false =>
        cases hy : y.2 == c <;> simp [List.filter_cons, hy, ih, hx]

theorem filter_sortByCountDesc (c : Nat) :
    ∀ l : KCounter, (sortByCountDesc l).filter (fun p => p.2 == c) =
      l.filter (fun p => p.2 == c) := by
  intro l
  induction l with
  | nil => rfl
  | cons x xs ih =>
    simp only [sortByCountDesc]
    rw [filter_insertByCount]
    cases hx : x.2 == c <;> simp [List.filter_cons, hx, ih]

/-- `p` is an initial segment of `l`. -/
def leadsList {α : Type} (p l : List α) : Prop := ∃ t, l = p ++ t

theorem filter_take_leads {α : Type} (p : α → Bool) (n : Nat) (l : List α) :
    leadsList ((l.take n).filter p) (l.filter p) :=
  ⟨(l.drop n).filter p, by rw [← List.filter_append, List.take_append_drop]⟩

theorem mostCommon_length_le (c : KCounter) (n : Nat) : (mostCommon c n).length ≤ n := by
  unfold mostCommon
  rw [List.length_take]
  exact min_le_left _ _

theorem mostCommon_pairwise (c : KCounter) (n : Nat) :
    List.Pairwise (fun p q : Str × Nat => q.2 ≤ p.2) (mostCommon c n) :=
  List.Pairwise.sublist (List.take_sublist n _) (sortByCountDesc_pairwise c)

theorem mostCommon_filter_leads (ct : KCounter) (n : Nat) (c : Nat) :
    leadsList ((mostCommon ct n).filter (fun p => p.2 == c))
      (ct.filter (fun p => p.2 == c)) := by
  unfold mostCommon
  have h := filter_take_leads (fun p : Str × Nat => p.2 == c) n (sortByCountDesc ct)
  rwa [filter_sortByCountDesc] at h

/-- C5: the four frequency tables are capped at 15/15/10/10 entries and the
recurrence table at 20; each table is ordered by non-increasing count; and
ties are broken by first-encountered keyword order — for every count value,
the table's entries with that count form an initial segment of the
equally-counted entries of the underlying insertion-ordered counter. -/
theorem c5_table_caps_order_stability :
    ∀ rs : List Reflection,
      (analyze_recurring_themes rs).discovery_keywords.length ≤ 15 ∧
      (analyze_recurring_themes rs).improvement_keywords.length ≤ 15 ∧
      (analyze_recurring_themes rs).question_keywords.length ≤ 10 ∧
      (analyze_recurring_themes rs).pattern_keywords.length ≤ 10 ∧
      (analyze_recurring_themes rs).recurring_across_sessions.length ≤ 20 ∧
      List.Pairwise (fun p q : Str × Nat => q.2 ≤ p.2)
        (analyze_recurring_themes rs).discovery_keywords ∧
      List.Pairwise (fun p q : Str × Nat => q.2 ≤ p.2)
        (analyze_recurring_themes rs).improvement_keywords ∧
      List.Pairwise (fun p q : Str × Nat => q.2 ≤ p.2)
        (analyze_recurring_themes rs).question_keywords ∧
      List.Pairwise (fun p q : Str × Nat => q.2 ≤ p.2)
        (analyze_recurring_themes rs).pattern_keywords ∧
      (∀ c : Nat,
        leadsList ((analyze_recurring_themes rs).discovery_keywords.filter (fun p => p.2 == c))
          ((aggStats rs).dc.filter (fun p => p.2 == c)) ∧
        leadsList ((analyze_recurring_themes rs).improvement_keywords.filter (fun p => p.2 == c))
          ((aggStats rs).ic.filter (fun p => p.2 == c)) ∧
        leadsList ((analyze_recurring_themes rs).question_keywords.filter (fun p => p.2 == c))
          ((aggStats rs).qc.filter (fun p => p.2 == c)) ∧
        leadsList ((analyze_recurring_themes rs).pattern_keywords.filter (fun p => p.2 == c))
          ((aggStats rs).pc.filter (fun p => p.2 == c))) := by
  intro rs
  unfold analyze_recurring_themes
  dsimp only
  refine ⟨mostCommon_length_le _ _, mostCommon_length_le _ _, mostCommon_length_le _ _,
    mostCommon_length_le _ _, ?_, mostCommon_pairwise _ _, mostCommon_pairwise _ _,
    mostCommon_pairwise _ _, mostCommon_pairwise _ _, ?_⟩
  · rw [List.length_map]
    exact le_trans (List.length_filter_le _ _) (mostCommon_length_le _ _)
  · intro c
    exact ⟨mostCommon_filter_leads _ _ _, mostCommon_filter_leads _ _ _,
      mostCommon_filter_leads _ _ _, mostCommon_filter_leads _ _ _⟩
